import Mathlib

/-!
Shallow embedding of the NAHEO hybrid controller core
(`e_naheo_brain_v2.py`): the EKF state estimator, the analytic 2-step
MPC duty-cycle controller, the tabular Q-learning strategist, and the
orchestrator `run_cycle`.  Python float arithmetic is modelled by exact
rational arithmetic (ℚ); the pseudo-random generator is modelled by
explicit draw arguments (a uniform draw in [0,1) and a choice index).
Fallible operations (dictionary key lookups, float division by an exact
zero, which raises `ZeroDivisionError` in Python) are modelled with
`Except`.
-/

namespace NAHEO

/-- State of `EKF_GhostSensor`: state vector `x = [I, R]` and the 2x2
covariance matrix `P` stored entrywise.  The process noise `Q`
(diag(0.01, 0.001)) and measurement noise `R = 0.1` are fixed constants
of the source and are inlined in `EKF.update`. -/
structure EKFState where
  x0 : ℚ
  x1 : ℚ
  p00 : ℚ
  p01 : ℚ
  p10 : ℚ
  p11 : ℚ
deriving DecidableEq, Repr

/-- Source `EKF_GhostSensor.__init__`: `x = [0.0, 0.3]`, `P = I`. -/
def initEKF : EKFState := ⟨0, 3/10, 1, 0, 0, 1⟩

/-- Source `EKF_GhostSensor.update(v_term, v_ocv)`: returns the estimated
current together with the updated filter state.  The division by `S` is
numpy float division, which never raises (it yields non-finite values
when `S == 0`); here it is ℚ's total division. -/
def EKF.update (s : EKFState) (v_term v_ocv : ℚ) : ℚ × EKFState :=
  let z := max 0 (v_ocv - v_term)
  -- P_pred = P + Q
  let pp00 := s.p00 + 1/100
  let pp01 := s.p01
  let pp10 := s.p10
  let pp11 := s.p11 + 1/1000
  -- H = [x[1], x[0]]
  let h0 := s.x1
  let h1 := s.x0
  -- P_pred @ H
  let ph0 := pp00 * h0 + pp01 * h1
  let ph1 := pp10 * h0 + pp11 * h1
  -- S = H . (P_pred @ H) + R
  let S := h0 * ph0 + h1 * ph1 + 1/10
  -- K = (P_pred @ H) / S
  let k0 := ph0 / S
  let k1 := ph1 / S
  -- innovation y = z - I*R
  let y := z - s.x0 * s.x1
  let nx0 := s.x0 + k0 * y
  let nx1 := s.x1 + k1 * y
  -- P_new = P_pred - outer(K, H) * S
  let np00 := pp00 - k0 * h0 * S
  let np01 := pp01 - k0 * h1 * S
  let np10 := pp10 - k1 * h0 * S
  let np11 := pp11 - k1 * h1 * S
  -- physical clamps
  let cx0 := max 0 nx0
  let cx1 := max (1/20) nx1
  (cx0, ⟨cx0, cx1, np00, np01, np10, np11⟩)

/-- Iterate `EKF.update` over a list of `(v_term, v_ocv)` observations. -/
def ekfRun (s : EKFState) : List (ℚ × ℚ) → EKFState
  | [] => s
  | (v, ocv) :: rest => ekfRun (EKF.update s v ocv).2 rest

/-- Source `TrueMPC_Reactor.a = 0.9`. -/
def mpcA : ℚ := 9/10

/-- Source `TrueMPC_Reactor.b = 0.8`. -/
def mpcB : ℚ := 4/5

/-- State of `TrueMPC_Reactor`: the last applied duty cycle `u`. -/
structure MPCState where
  u : ℚ
deriving DecidableEq, Repr

/-- Source `TrueMPC_Reactor.__init__`: `u = 1.0`. -/
def initMPC : MPCState := ⟨1⟩

/-- Source `TrueMPC_Reactor.compute(target_v_norm, current_v_norm,
penalty_lambda)`.  Python float division raises `ZeroDivisionError` on
an exactly zero denominator (all operands at this point are plain
Python floats), modelled by the `Except` error branch.  Otherwise the
clipped optimum is stored as the new `u` and returned. -/
def TrueMPC.compute (s : MPCState) (target_v_norm current_v_norm penalty_lambda : ℚ) :
    Except String (ℚ × MPCState) :=
  let v_next := mpcA * current_v_norm + mpcB * s.u
  let numerator := mpcB * (target_v_norm - mpcA * current_v_norm)
      + (1/2) * mpcA * mpcB * (target_v_norm - v_next)
      + penalty_lambda * s.u
  let denominator := mpcB ^ 2 + (1/2) * mpcA * mpcB ^ 2 + penalty_lambda
  if denominator = 0 then
    .error "ZeroDivisionError"
  else
    let u_opt := numerator / denominator
    let u_new := max (1/10) (min 1 u_opt)
    .ok (u_new, ⟨u_new⟩)

/-- The spec's closed-form unclipped optimum, written from the spec's
displayed formula (for comparison with the source's `compute`):
`v_next = a·current + b·u_prev`,
`u_opt = (b·(target − a·current) + 0.5·a·b·(target − v_next) +
aggressiveness·u_prev) / (b² + 0.5·a·b² + aggressiveness)`. -/
def uOptSpec (u_prev target current aggressiveness : ℚ) : ℚ :=
  let v_next := mpcA * current + mpcB * u_prev
  (mpcB * (target - mpcA * current) + (1/2) * mpcA * mpcB * (target - v_next)
      + aggressiveness * u_prev)
    / (mpcB ^ 2 + (1/2) * mpcA * mpcB ^ 2 + aggressiveness)

/-- Source `QLearning_Strategist.actions = [0.1, 1.0, 5.0]`. -/
def actions : List ℚ := [1/10, 1, 5]

/-- One row of the Q-table: the dict `{0.1: q01, 1.0: q10, 5.0: q50}`,
whose keys are always exactly the three actions in declaration order. -/
structure QRow where
  q01 : ℚ
  q10 : ℚ
  q50 : ℚ
deriving DecidableEq, Repr

/-- Fresh dict row over the three actions, every value 0.0. -/
def freshRow : QRow := ⟨0, 0, 0⟩

/-- State of `QLearning_Strategist`: the lazily grown Q-table (an
insertion-ordered dict, modelled as an association list) together with
the hyper-parameter fields `alpha`, `gamma`, `epsilon`. -/
structure QLState where
  q_table : List (ℤ × QRow)
  alpha : ℚ
  gamma : ℚ
  epsilon : ℚ
deriving DecidableEq, Repr

/-- Source `QLearning_Strategist.__init__`. -/
def initQL : QLState := ⟨[], 1/10, 9/10, 1/10⟩

/-- Dict lookup `q_table[state]` / `state in q_table`. -/
def qlookup : List (ℤ × QRow) → ℤ → Option QRow
  | [], _ => none
  | (k, r) :: rest, s => if k = s then some r else qlookup rest s

/-- Lazy row creation: when the state is absent, dict insertion appends
a fresh all-zero row at the end of the table. -/
def ensureRow (t : List (ℤ × QRow)) (s : ℤ) : List (ℤ × QRow) :=
  match qlookup t s with
  | some _ => t
  | none => t ++ [(s, freshRow)]

/-- Assignment `q_table[state][action] = v` for a state already present. -/
def tableSet : List (ℤ × QRow) → ℤ → QRow → List (ℤ × QRow)
  | [], _, _ => []
  | (k, r) :: rest, s, nr => if k = s then (k, nr) :: rest else (k, r) :: tableSet rest s nr

/-- Row lookup `row[action]` over the fixed three keys. -/
def rowGet (r : QRow) (a : ℚ) : ℚ :=
  if a = 1/10 then r.q01 else if a = 1 then r.q10 else if a = 5 then r.q50 else 0

/-- Row assignment `row[action] = v` over the fixed three keys. -/
def rowSet (r : QRow) (a v : ℚ) : QRow :=
  if a = 1/10 then { r with q01 := v }
  else if a = 1 then { r with q10 := v }
  else if a = 5 then { r with q50 := v }
  else r

/-- Source `QLearning_Strategist.get_state(soc)`: `int(soc // 20) * 20`. -/
def QL.get_state (soc : ℚ) : ℤ := ⌊soc / 20⌋ * 20

/-- Python's `max(keys, key=get)` over the insertion-ordered keys
`[0.1, 1.0, 5.0]`: scan left to right, replacing the running best only
on a strictly greater value (first-listed wins ties). -/
def greedyAction (r : QRow) : ℚ :=
  let b1 : ℚ × ℚ := (1/10, r.q01)
  let b2 : ℚ × ℚ := if r.q10 > b1.2 then (1, r.q10) else b1
  let b3 : ℚ × ℚ := if r.q50 > b2.2 then (5, r.q50) else b2
  b3.1

/-- Source `QLearning_Strategist.choose_action(state)`.  The two RNG draws are
explicit arguments: `rnd` models `random.random()` and `choiceIdx`
models the index drawn by `random.choice`. -/
def QL.choose_action (qs : QLState) (state : ℤ) (rnd : ℚ) (choiceIdx : Fin 3) :
    ℚ × QLState :=
  if rnd < qs.epsilon then
    (actions.getD choiceIdx.val 0, qs)
  else
    let t := ensureRow qs.q_table state
    let row := (qlookup t state).getD freshRow
    (greedyAction row, { qs with q_table := t })

/-- Source `QLearning_Strategist.learn(state, action, reward, next_state)`. -/
def QL.learn (qs : QLState) (state : ℤ) (action reward : ℚ) (next_state : ℤ) : QLState :=
  let t1 := ensureRow qs.q_table state
  let t2 := ensureRow t1 next_state
  let row := (qlookup t2 state).getD freshRow
  let old_q := rowGet row action
  let nrow := (qlookup t2 next_state).getD freshRow
  let next_max := max nrow.q01 (max nrow.q10 nrow.q50)
  let new_q := old_q + qs.alpha * (reward + qs.gamma * next_max - old_q)
  { qs with q_table := tableSet t2 state (rowSet row action new_q) }

/-- The per-cycle observation dict: each key may be absent (Python
raises `KeyError` on access of a missing key). -/
structure SensorData where
  V : Option ℚ
  Disturbance : Option Bool
  SoC : Option ℚ
deriving DecidableEq, Repr

/-- State of `NAHEO_Brain_V2`: the three owned components plus the
cross-cycle bookkeeping fields. -/
structure BrainState where
  ghost : EKFState
  mpc : MPCState
  rl : QLState
  last_soc_state : ℤ
  last_action : ℚ
deriving DecidableEq, Repr

/-- Source `NAHEO_Brain_V2.__init__`. -/
def initBrain : BrainState := ⟨initEKF, initMPC, initQL, 100, 1⟩

/-- Source `NAHEO_Brain_V2.run_cycle(sensor_data)`.  Returns the decision
triple `(pwm_out, cpu_mode, i_est)` and the updated brain state, or an
error when a dict key is missing (`KeyError`, raised before any state
mutation) or the controller division raises. -/
def run_cycle (br : BrainState) (sd : SensorData) (rnd : ℚ) (choiceIdx : Fin 3) :
    Except String ((ℚ × String × ℚ) × BrainState) :=
  match sd.V with
  | none => .error "KeyError: V"
  | some v =>
  match sd.Disturbance with
  | none => .error "KeyError: Disturbance"
  | some disturbance =>
  match sd.SoC with
  | none => .error "KeyError: SoC"
  | some soc =>
  -- 1. ghost sense
  let ocv_est := 6 + (12/5) * (soc / 100)
  let gres := EKF.update br.ghost v ocv_est
  let i_est := gres.1
  -- 2. RL strategy
  let current_state := QL.get_state soc
  let energy_penalty_factor := (110 - soc) / 4
  let reward := v / (42/5) - energy_penalty_factor * i_est * (9/50)
  let rl1 := QL.learn br.rl br.last_soc_state br.last_action reward current_state
  let cres := QL.choose_action rl1 current_state rnd choiceIdx
  let mpc_lambda0 := cres.1
  -- bookkeeping is written BEFORE the disturbance override
  let mpc_lambda := if disturbance then (1/100 : ℚ) else mpc_lambda0
  -- 3. target
  let target_v : ℚ := if disturbance then 42/5 else 15/2
  -- 4. MPC execute
  match TrueMPC.compute br.mpc (target_v / (42/5)) (v / (42/5)) mpc_lambda with
  | .error e => .error e
  | .ok res =>
      -- 5. ETC / DVFS: delta against self.mpc.u, read AFTER compute
      -- already stored the new duty cycle
      let delta_pwm := |res.1 - res.2.u|
      let cpu_mode := if disturbance ∨ delta_pwm > 1/100 then "HIGH" else "LOW"
      .ok ((res.1, cpu_mode, i_est), ⟨gres.2, res.2, cres.2, current_state, mpc_lambda0⟩)

/-- A whole run: one `run_cycle` per observation, drawing the cycle's
randomness from the stream `g` (the single seeded generator), aborting
on the first error as the Python exception would. -/
def runSeq : BrainState → List SensorData → (ℕ → ℚ × Fin 3) → ℕ →
    Except String (List (ℚ × String × ℚ) × BrainState)
  | br, [], _, _ => .ok ([], br)
  | br, sd :: rest, g, n =>
    match run_cycle br sd (g n).1 (g n).2 with
    | .error e => .error e
    | .ok (out, br') =>
      match runSeq br' rest g (n + 1) with
      | .error e => .error e
      | .ok (outs, brF) => .ok (out :: outs, brF)

end NAHEO

namespace NAHEO

/-- C1: for any finite target, current voltage and aggressiveness ≥ 0,
`TrueMPC_Reactor.compute` succeeds, the returned duty cycle lies in
[0.1, 1.0], and the stored `u` equals the returned value, so the
invariant `u ∈ [0.1, 1.0]` holds after every compute call. -/
theorem compute_duty_in_range (s : MPCState) (target current lam : ℚ) (h : 0 ≤ lam) :
    ∃ u : ℚ, TrueMPC.compute s target current lam = .ok (u, ⟨u⟩) ∧
      1/10 ≤ u ∧ u ≤ 1 := by
  have h1 : mpcB ^ 2 + (1/2) * mpcA * mpcB ^ 2 = 116/125 := by
    norm_num [mpcA, mpcB]
  have hden : mpcB ^ 2 + (1/2) * mpcA * mpcB ^ 2 + lam ≠ 0 := by
    rw [h1]; intro hc; linarith
  refine ⟨max (1/10) (min 1 ((mpcB * (target - mpcA * current)
      + (1/2) * mpcA * mpcB * (target - (mpcA * current + mpcB * s.u))
      + lam * s.u) / (mpcB ^ 2 + (1/2) * mpcA * mpcB ^ 2 + lam))), ?_, ?_, ?_⟩
  · simp only [TrueMPC.compute, if_neg hden]
  · exact le_max_left _ _
  · exact max_le (by norm_num) (min_le_left _ _)

theorem compute_duty_in_range_witness :
    ∃ u : ℚ, TrueMPC.compute initMPC 1 1 0 = .ok (u, ⟨u⟩) ∧ 1/10 ≤ u ∧ u ≤ 1 :=
  compute_duty_in_range initMPC 1 1 0 (by norm_num)

/-- C3: whenever the denominator is nonzero (in particular for every
aggressiveness ≥ 0), the source's `compute` returns exactly the spec's
closed-form unclipped optimum `uOptSpec` clipped to [0.1, 1.0], stored
as the new `u`. -/
theorem compute_matches_spec_formula (s : MPCState) (target current lam : ℚ)
    (h : mpcB ^ 2 + (1/2) * mpcA * mpcB ^ 2 + lam ≠ 0) :
    TrueMPC.compute s target current lam =
      .ok (max (1/10) (min 1 (uOptSpec s.u target current lam)),
        ⟨max (1/10) (min 1 (uOptSpec s.u target current lam))⟩) := by
  simp only [TrueMPC.compute, uOptSpec, if_neg h]

theorem compute_matches_spec_formula_witness :
    TrueMPC.compute initMPC 1 1 1 =
      .ok (max (1/10) (min 1 (uOptSpec initMPC.u 1 1 1)),
        ⟨max (1/10) (min 1 (uOptSpec initMPC.u 1 1 1))⟩) :=
  compute_matches_spec_formula initMPC 1 1 1 (by norm_num [mpcA, mpcB])

/-- C4: when the controller's denominator evaluates to zero the
computation fails explicitly (Python float division by an exact zero
raises `ZeroDivisionError`), surfacing an error to the caller instead
of returning a non-finite duty cycle.  (In this exact rational
embedding all values are finite, so the zero denominator is the only
degenerate case.) -/
theorem compute_zero_denominator_fails (s : MPCState) (target current lam : ℚ)
    (h : mpcB ^ 2 + (1/2) * mpcA * mpcB ^ 2 + lam = 0) :
    TrueMPC.compute s target current lam = .error "ZeroDivisionError" := by
  simp only [TrueMPC.compute, if_pos h]

theorem compute_zero_denominator_fails_witness :
    TrueMPC.compute initMPC 1 1 (-(116/125)) = .error "ZeroDivisionError" :=
  compute_zero_denominator_fails initMPC 1 1 (-(116/125)) (by norm_num [mpcA, mpcB])

/-- C2: after every `EKF_GhostSensor.update` (single step, and along any
nonempty sequence of updates from any start state) the estimated
current satisfies `I ≥ 0`, the estimated resistance satisfies
`R ≥ 0.05`, and `update` returns the clamped current estimate. -/
theorem ekf_estimates_clamped :
    (∀ (s : EKFState) (v ocv : ℚ),
        0 ≤ (EKF.update s v ocv).2.x0 ∧ (1:ℚ)/20 ≤ (EKF.update s v ocv).2.x1 ∧
        (EKF.update s v ocv).1 = (EKF.update s v ocv).2.x0) ∧
    (∀ (s : EKFState) (obss : List (ℚ × ℚ)), obss ≠ [] →
        0 ≤ (ekfRun s obss).x0 ∧ (1:ℚ)/20 ≤ (ekfRun s obss).x1) := by
  have hstep : ∀ (s : EKFState) (v ocv : ℚ),
      0 ≤ (EKF.update s v ocv).2.x0 ∧ (1:ℚ)/20 ≤ (EKF.update s v ocv).2.x1 ∧
      (EKF.update s v ocv).1 = (EKF.update s v ocv).2.x0 :=
    fun s v ocv => ⟨le_max_left _ _, le_max_left _ _, rfl⟩
  refine ⟨hstep, ?_⟩
  intro s obss
  induction obss generalizing s with
  | nil => simp
  | cons hd tl ih =>
    obtain ⟨v, ocv⟩ := hd
    intro _
    cases tl with
    | nil =>
      obtain ⟨h1, h2, _⟩ := hstep s v ocv
      exact ⟨h1, h2⟩
    | cons hd2 tl2 =>
      exact ih (EKF.update s v ocv).2 (by simp)

theorem ekf_estimates_clamped_witness :
    0 ≤ (ekfRun initEKF [(7, 8)]).x0 ∧ (1:ℚ)/20 ≤ (ekfRun initEKF [(7, 8)]).x1 :=
  ekf_estimates_clamped.2 initEKF [(7, 8)] (by simp)

end NAHEO

namespace NAHEO

/-- The controller denominator is `116/125 + λ`, hence nonzero for any
nonnegative aggressiveness. -/
theorem mpc_denom_ne_zero (lam : ℚ) (h : 0 ≤ lam) :
    mpcB ^ 2 + (1/2) * mpcA * mpcB ^ 2 + lam ≠ 0 := by
  have h1 : mpcB ^ 2 + (1/2) * mpcA * mpcB ^ 2 = 116/125 := by
    norm_num [mpcA, mpcB]
  rw [h1]; intro hc; linarith

/-- With a nonzero denominator, `compute` returns the clipped spec
optimum and stores it. -/
theorem compute_eq_clip (s : MPCState) (target current lam : ℚ)
    (h : mpcB ^ 2 + (1/2) * mpcA * mpcB ^ 2 + lam ≠ 0) :
    TrueMPC.compute s target current lam =
      .ok (max (1/10) (min 1 (uOptSpec s.u target current lam)),
        ⟨max (1/10) (min 1 (uOptSpec s.u target current lam))⟩) := by
  simp only [TrueMPC.compute, uOptSpec, if_neg h]

/-- The greedy scan always returns one of the three positive actions. -/
theorem greedyAction_pos (r : QRow) : 0 < greedyAction r := by
  simp only [greedyAction]
  split_ifs <;> norm_num

/-- Helper: `choose_action` always returns a positive aggressiveness. -/
theorem choose_action_pos (qs : QLState) (st : ℤ) (rnd : ℚ) (ci : Fin 3) :
    0 < (QL.choose_action qs st rnd ci).1 := by
  unfold QL.choose_action
  split_ifs with h
  · fin_cases ci <;> norm_num [actions]
  · exact greedyAction_pos _

theorem qlookup_append_self (t : List (ℤ × QRow)) (s : ℤ) (r : QRow)
    (h : qlookup t s = none) : qlookup (t ++ [(s, r)]) s = some r := by
  induction t with
  | nil => simp [qlookup]
  | cons hd tl ih =>
    obtain ⟨k, row⟩ := hd
    by_cases hk : k = s
    · simp [qlookup, hk] at h
    · simp only [qlookup, if_neg hk] at h ⊢
      exact ih h

theorem qlookup_append_left (t l : List (ℤ × QRow)) (s : ℤ) (r : QRow)
    (h : qlookup t s = some r) : qlookup (t ++ l) s = some r := by
  induction t with
  | nil => simp [qlookup] at h
  | cons hd tl ih =>
    obtain ⟨k, row⟩ := hd
    by_cases hk : k = s
    · simpa [qlookup, hk] using h
    · simp only [qlookup, if_neg hk] at h ⊢
      exact ih h

theorem qlookup_ensureRow_self (t : List (ℤ × QRow)) (s : ℤ) :
    (qlookup (ensureRow t s) s).isSome := by
  unfold ensureRow
  cases hl : qlookup t s with
  | some r => simp [hl]
  | none => rw [qlookup_append_self t s freshRow hl]; rfl

theorem qlookup_ensureRow_isSome_mono (t : List (ℤ × QRow)) (s s' : ℤ)
    (h : (qlookup t s).isSome) : (qlookup (ensureRow t s') s).isSome := by
  unfold ensureRow
  cases hl : qlookup t s' with
  | some r => exact h
  | none =>
    cases hs : qlookup t s with
    | none => rw [hs] at h; simp at h
    | some r => rw [qlookup_append_left t _ s r hs]; rfl

theorem qlookup_tableSet_isSome (t : List (ℤ × QRow)) (s s' : ℤ) (nr : QRow) :
    (qlookup (tableSet t s' nr) s).isSome = (qlookup t s).isSome := by
  induction t with
  | nil => rfl
  | cons hd tl ih =>
    obtain ⟨k, row⟩ := hd
    by_cases hk : k = s'
    · by_cases hks : k = s <;> simp [tableSet, qlookup, hk, hks, hk ▸ hks]
    · by_cases hks : k = s
      · subst hks
        simp [tableSet, qlookup, hk]
      · simp [tableSet, qlookup, hk, hks, ih]

end NAHEO

namespace NAHEO

/-- C5 (amended): `run_cycle` returns power mode "HIGH" exactly when the
disturbance flag is set.  The duty-cycle delta is computed against the
controller's just-updated stored value, so it is always zero and never
trips the 0.01 threshold. -/
theorem run_cycle_mode_eq_disturbance (br : BrainState) (v : ℚ) (d : Bool)
    (soc rnd : ℚ) (ci : Fin 3) :
    ∃ pwm i_est br', run_cycle br ⟨some v, some d, some soc⟩ rnd ci =
      .ok ((pwm, (if d then "HIGH" else "LOW"), i_est), br') := by
  have hlam : (0:ℚ) < (if d then (1/100 : ℚ)
      else (QL.choose_action (QL.learn br.rl br.last_soc_state br.last_action
        (v / (42/5) - (110 - soc) / 4 *
          (EKF.update br.ghost v (6 + 12/5 * (soc / 100))).1 * (9/50))
        (QL.get_state soc)) (QL.get_state soc) rnd ci).1) := by
    cases d
    · exact choose_action_pos _ _ _ _
    · norm_num
  unfold run_cycle
  dsimp only
  rw [compute_eq_clip _ _ _ _ (mpc_denom_ne_zero _ (le_of_lt hlam))]
  dsimp only
  rw [sub_self, abs_zero]
  have hfalse : ¬((0:ℚ) > 1/100) := by norm_num
  cases d
  · simp only [Bool.false_eq_true, if_false, false_or, if_neg hfalse]
    exact ⟨_, _, _, rfl⟩
  · simp only [if_true, true_or]
    exact ⟨_, _, _, rfl⟩

/-- C5 (counterexample to the claim as stated): from the fresh brain
with stored duty 1.0, the observation V = 7.5, no disturbance,
SoC = 50 (greedy draw 1/2) moves the duty cycle to 0.1, a change of
0.9 > 0.01 against the pre-update duty cycle, yet `run_cycle` returns
"LOW" where the claim requires "HIGH". -/
theorem run_cycle_mode_counterexample :
    (run_cycle initBrain ⟨some (15/2), some false, some 50⟩ (1/2) 0).toOption.map
        (fun p => (p.1.1, p.1.2.1)) = some (1/10, "LOW") ∧
    |(1:ℚ)/10 - initBrain.mpc.u| > 1/100 := by
  constructor
  · norm_num [run_cycle, initBrain, initEKF, initMPC, initQL, EKF.update,
      QL.get_state, QL.learn, QL.choose_action, ensureRow, qlookup, tableSet,
      rowGet, rowSet, greedyAction, freshRow, TrueMPC.compute, mpcA, mpcB,
      actions, min_def, max_def, Except.toOption]
  · rw [show ((1:ℚ)/10 - initBrain.mpc.u) = -(9/10) from by norm_num [initBrain, initMPC]]
    rw [abs_neg, abs_of_pos (by norm_num : (0:ℚ) < 9/10)]
    norm_num

/-- C6: with the disturbance flag set, `run_cycle` calls the controller
with the minimal fixed aggressiveness 0.01 and the normalized target
8.4/8.4, returns power mode "HIGH", and the stored bookkeeping keeps
the learner's selected bin and action, untouched by the override. -/
theorem run_cycle_disturbance_override (br : BrainState) (v soc rnd : ℚ) (ci : Fin 3) :
    ∃ pwm i_est br',
      run_cycle br ⟨some v, some true, some soc⟩ rnd ci =
        .ok ((pwm, "HIGH", i_est), br') ∧
      TrueMPC.compute br.mpc ((42/5) / (42/5)) (v / (42/5)) (1/100) = .ok (pwm, br'.mpc) ∧
      br'.last_soc_state = QL.get_state soc ∧
      br'.last_action = (QL.choose_action (QL.learn br.rl br.last_soc_state br.last_action
          (v / (42/5) - (110 - soc) / 4 *
            (EKF.update br.ghost v (6 + 12/5 * (soc / 100))).1 * (9/50))
          (QL.get_state soc)) (QL.get_state soc) rnd ci).1 := by
  have hden := mpc_denom_ne_zero (1/100) (by norm_num)
  unfold run_cycle
  dsimp only
  simp only [reduceIte]
  rw [compute_eq_clip _ _ _ _ hden]
  dsimp only
  exact ⟨_, _, _, rfl, rfl, rfl, rfl⟩

/-- C7 (amended): an observation missing any of the required fields V,
Disturbance, SoC makes `run_cycle` fail immediately with a key error
raised before any component state is touched (the error branch carries
no updated state).  Out-of-range or non-finite values are NOT rejected
by the source; see the counterexample. -/
theorem run_cycle_missing_field_fails (br : BrainState) (sd : SensorData)
    (rnd : ℚ) (ci : Fin 3)
    (h : sd.V = none ∨ sd.Disturbance = none ∨ sd.SoC = none) :
    ∃ e, run_cycle br sd rnd ci = .error e := by
  obtain ⟨V, D, S⟩ := sd
  rcases h with h | h | h
  · cases h; exact ⟨_, rfl⟩
  · cases h
    cases V with
    | none => exact ⟨_, rfl⟩
    | some v => exact ⟨_, rfl⟩
  · cases h
    cases V with
    | none => exact ⟨_, rfl⟩
    | some v =>
      cases D with
      | none => exact ⟨_, rfl⟩
      | some d => exact ⟨_, rfl⟩

theorem run_cycle_missing_field_fails_witness :
    ∃ e, run_cycle initBrain ⟨none, some false, some 50⟩ (1/2) 0 = .error e :=
  run_cycle_missing_field_fails initBrain ⟨none, some false, some 50⟩ (1/2) 0 (Or.inl rfl)

/-- C7 (counterexample to the claim as stated): the out-of-physical
range observation V = -5 (negative terminal voltage) is not rejected:
`run_cycle` on the fresh brain succeeds and mutates state (the policy
table grows from 0 to 2 rows). -/
theorem run_cycle_out_of_range_counterexample :
    ((-5 : ℚ) < 0) ∧
    (run_cycle initBrain ⟨some (-5), some false, some 50⟩ (1/2) 0).toOption.map
        (fun p => p.2.rl.q_table.length) = some 2 ∧
    initBrain.rl.q_table.length = 0 := by
  refine ⟨by norm_num, ?_, rfl⟩
  norm_num [run_cycle, initBrain, initEKF, initMPC, initQL, EKF.update,
      QL.get_state, QL.learn, QL.choose_action, ensureRow, qlookup, tableSet,
      rowGet, rowSet, greedyAction, freshRow, TrueMPC.compute, mpcA, mpcB,
      actions, min_def, max_def, Except.toOption]

/-- C8: with exploration probability 0 and an unvisited bin (fresh
all-zero row), `choose_action` returns the first-listed action 0.1;
and in general the greedy scan breaks ties in the fixed declaration
order of the actions, first-listed wins. -/
theorem choose_action_first_listed :
    (∀ (qs : QLState) (st : ℤ) (rnd : ℚ) (ci : Fin 3),
        qs.epsilon = 0 → 0 ≤ rnd → qlookup qs.q_table st = none →
        (QL.choose_action qs st rnd ci).1 = 1/10) ∧
    (∀ r : QRow,
        (r.q10 ≤ r.q01 → r.q50 ≤ r.q01 → greedyAction r = 1/10) ∧
        (r.q01 < r.q10 → r.q50 ≤ r.q10 → greedyAction r = 1) ∧
        ((r.q01 < r.q10 ∧ r.q10 < r.q50) ∨ (r.q10 ≤ r.q01 ∧ r.q01 < r.q50) →
          greedyAction r = 5)) := by
  constructor
  · intro qs st rnd ci heps hr hlk
    unfold QL.choose_action
    rw [heps, if_neg (not_lt.2 hr)]
    dsimp only
    unfold ensureRow
    rw [hlk]
    rw [qlookup_append_self qs.q_table st freshRow hlk]
    rfl
  · intro r
    refine ⟨?_, ?_, ?_⟩
    · intro h1 h2
      simp only [greedyAction]
      split_ifs <;> first | rfl | (exfalso; dsimp at *; linarith)
    · intro h1 h2
      simp only [greedyAction]
      split_ifs <;> first | rfl | (exfalso; dsimp at *; linarith)
    · intro h
      rcases h with ⟨h1, h2⟩ | ⟨h1, h2⟩ <;>
        · simp only [greedyAction]
          split_ifs <;> first | rfl | (exfalso; dsimp at *; linarith)

theorem choose_action_first_listed_witness :
    (QL.choose_action ⟨[], 1/10, 9/10, 0⟩ 40 (1/2) 0).1 = 1/10 :=
  choose_action_first_listed.1 ⟨[], 1/10, 9/10, 0⟩ 40 (1/2) 0 rfl (by norm_num) rfl

/-- C9: determinism.  Two independent runs over fresh core instances,
fed the identical observation sequence and the identical random stream
(as produced by a fixed seed of the single pseudo-random generator),
produce identical duty-cycle / power-mode / current-estimate traces:
the trace is a function of the observations and the draws alone. -/
theorem run_seq_deterministic (obss : List SensorData) (g1 g2 : ℕ → ℚ × Fin 3)
    (h : ∀ n, g1 n = g2 n) :
    runSeq initBrain obss g1 0 = runSeq initBrain obss g2 0 := by
  have hg : g1 = g2 := funext h
  rw [hg]

theorem run_seq_deterministic_witness :
    runSeq initBrain [⟨some (15/2), some false, some 50⟩] (fun _ => (1/2, 0)) 0 =
      runSeq initBrain [⟨some (15/2), some false, some 50⟩] (fun _ => (1/2, 0)) 0 :=
  run_seq_deterministic [⟨some (15/2), some false, some 50⟩]
    (fun _ => (1/2, 0)) (fun _ => (1/2, 0)) (fun _ => rfl)

/-- C10: discretizing charge 100 gives bin `int(100 // 20) * 20 = 100`,
a sixth bin outside the five bins 0, 20, 40, 60, 80; the orchestrator's
initial last-bin context is 100, so the very first `learn` call makes
the policy table hold a row keyed 100 (whatever the reward and the
current bin are). -/
theorem get_state_100_sixth_bin :
    QL.get_state 100 = 100 ∧
    (100 : ℤ) ∉ ([0, 20, 40, 60, 80] : List ℤ) ∧
    initBrain.last_soc_state = 100 ∧
    ∀ (reward : ℚ) (ns : ℤ),
      (qlookup (QL.learn initBrain.rl initBrain.last_soc_state initBrain.last_action
          reward ns).q_table 100).isSome = true := by
  refine ⟨by norm_num [QL.get_state], by decide, rfl, ?_⟩
  intro reward ns
  show (qlookup (QL.learn initQL 100 1 reward ns).q_table 100).isSome = true
  unfold QL.learn
  dsimp only
  rw [qlookup_tableSet_isSome]
  exact qlookup_ensureRow_isSome_mono _ _ _ (qlookup_ensureRow_self _ _)

end NAHEO
